import Mathlib

/-!
Verification development for the Shadow-Scan network security analyzer.

Strings from the JavaScript sources are modelled as `List Char`; JavaScript
numbers that take part in comparisons or arithmetic are modelled as `ℚ`.
Frontend functions are translated from the files under `frontend/src`;
the backend analysis engine (`analysis_manager.py`) is not part of the
available sources, so its behaviour is modelled from the specification,
as marked in the corresponding doc comments.
-/

namespace ShadowScan

/-- JavaScript strings, modelled as lists of characters. -/
abbrev Str := List Char

/-- `String.prototype.trim`: drop whitespace from both ends. -/
def trimStr (s : Str) : Str :=
  ((s.dropWhile Char.isWhitespace).reverse.dropWhile Char.isWhitespace).reverse

/-- `s.split(sep)` for a single-character separator: the (possibly empty)
tokens between occurrences of `c`.  `split` of the empty string is `[""]`. -/
def splitOnChar (c : Char) : Str → List Str
  | [] => [[]]
  | x :: xs =>
    match splitOnChar c xs with
    | [] => if x = c then [[], []] else [[x]]
    | t :: ts => if x = c then [] :: t :: ts else (x :: t) :: ts

/-- The regex test `/^\d+$/`: one or more decimal digits and nothing else. -/
def isNumericToken (p : Str) : Bool :=
  !p.isEmpty && p.all Char.isDigit

/-- `String.prototype.toLowerCase`, ASCII part. -/
def lowerStr (s : Str) : Str := s.map Char.toLower

/-- The decimal rendering of a number by JS template interpolation. -/
def natToStr (n : Nat) : Str := Nat.toDigits 10 n

/-- `deriveBaseKey` from `FingerprintResults.jsx`: trim and lowercase the
token, split on underscores dropping empty parts, drop a trailing purely
numeric part when at least one part precedes it, and rejoin with
underscores; empty input yields `"unknown"`. -/
def deriveBaseKey (token : Str) : Str :=
  let s := lowerStr (trimStr token)
  if s.isEmpty then "unknown".toList
  else
    let parts := (splitOnChar '_' s).filter (fun p => !p.isEmpty)
    if parts.isEmpty then "unknown".toList
    else
      let parts2 :=
        if parts.length > 1 && isNumericToken (parts.getLastD []) then
          parts.dropLast
        else parts
      let j := List.intercalate ['_'] parts2
      if !j.isEmpty then j
      else if !(parts2.headD []).isEmpty then parts2.headD [] else s

/-- Capitalisation of one word: `w.charAt(0).toUpperCase() + w.slice(1)`. -/
def capWord : Str → Str
  | [] => []
  | c :: cs => Char.toUpper c :: cs

/-- `formatDeviceType` from `FingerprintResults.jsx`: trim, replace
underscores with spaces, capitalise each space-separated word. -/
def formatDeviceType (t : Str) : Str :=
  if t.isEmpty then []
  else
    let s := trimStr t
    let cleaned := s.map (fun c => if c = '_' then ' ' else c)
    List.intercalate [' '] ((splitOnChar ' ' cleaned).map capWord)

/-- The fields of a fingerprinted device that the labeling logic reads;
an empty string models an absent (falsy) field. -/
structure FpDevice where
  device_type : Str
  device_name : Str
deriving DecidableEq, Repr

/-- `(device.device_type || device.device_name || "").toString().trim()` -/
def tokenOf (d : FpDevice) : Str :=
  trimStr (if !d.device_type.isEmpty then d.device_type
           else if !d.device_name.isEmpty then d.device_name else [])

/-- The canonical base key of a device, as computed in `runFingerprint`. -/
def baseKeyOf (d : FpDevice) : Str := deriveBaseKey (tokenOf d)

/-- STEP 1 of `runFingerprint`: `typeCounts[baseKey]` for one base key. -/
def countBase (devices : List FpDevice) (k : Str) : Nat :=
  (devices.filter (fun d => decide (baseKeyOf d = k))).length

/-- STEP 2 of `runFingerprint`, one device: given the full-list counts
`tc` and the mutable index map `ti`, produce the updated index map and the
display name of this device. -/
def labelStep (tc : Str → Nat) (d : FpDevice) (ti : Str → Nat) :
    (Str → Nat) × Str :=
  let k := baseKeyOf d
  let fb := formatDeviceType k
  if tc k > 1 then
    (fun x => if x = k then ti k + 1 else ti x,
     fb ++ " (".toList ++ natToStr (ti k + 1) ++ ")".toList)
  else (ti, fb)

/-- STEP 2 of `runFingerprint` over the device list, threading the
`typeIndex` map through the traversal. -/
def labelsFrom (tc : Str → Nat) (ti : Str → Nat) : List FpDevice → List Str
  | [] => []
  | d :: ds =>
    (labelStep tc d ti).2 :: labelsFrom tc (labelStep tc d ti).1 ds

/-- The display labels assigned by `runFingerprint` in
`FingerprintResults.jsx`: count base keys over the whole list, then assign
ordinals in first-seen order to devices whose base key occurs more than
once. -/
def assignLabels (devices : List FpDevice) : List Str :=
  labelsFrom (fun k => countBase devices k) (fun _ => 0) devices

theorem labelsFrom_length (tc ti : Str → Nat) (ds : List FpDevice) :
    (labelsFrom tc ti ds).length = ds.length := by
  induction ds generalizing ti with
  | nil => rfl
  | cons d ds ih => simp [labelsFrom, ih]

theorem assignLabels_length (devices : List FpDevice) :
    (assignLabels devices).length = devices.length :=
  labelsFrom_length _ _ _

theorem labelsFrom_get (ds : List FpDevice) (tc ti : Str → Nat) (i : Nat)
    (h : i < ds.length) (h2 : i < (labelsFrom tc ti ds).length) :
    (labelsFrom tc ti ds).get ⟨i, h2⟩ =
      (if 1 < tc (baseKeyOf (ds.get ⟨i, h⟩)) then
        formatDeviceType (baseKeyOf (ds.get ⟨i, h⟩)) ++ " (".toList ++
          natToStr (ti (baseKeyOf (ds.get ⟨i, h⟩)) +
            ((ds.take (i+1)).filter
              (fun d => decide (baseKeyOf d = baseKeyOf (ds.get ⟨i, h⟩)))).length) ++
          ")".toList
      else formatDeviceType (baseKeyOf (ds.get ⟨i, h⟩))) := by
  induction ds generalizing ti i with
  | nil => exact absurd h (by simp)
  | cons d ds ih =>
    cases i with
    | zero =>
      simp only [labelsFrom, List.get, List.take, List.filter]
      simp only [List.get_cons_zero] at *
      by_cases hk : 1 < tc (baseKeyOf d)
      · simp [labelStep, hk, List.filter]
      · simp [labelStep, hk]
    | succ i =>
      have hlt : i < ds.length := Nat.lt_of_succ_lt_succ h
      have h2lt : i < (labelsFrom tc (labelStep tc d ti).1 ds).length := by
        rw [labelsFrom_length]; exact hlt
      have step : (labelsFrom tc ti (d :: ds)).get ⟨i + 1, h2⟩ =
          (labelsFrom tc (labelStep tc d ti).1 ds).get ⟨i, h2lt⟩ := rfl
      rw [step, ih (labelStep tc d ti).1 i hlt h2lt]
      have hget : (d :: ds).get ⟨i + 1, h⟩ = ds.get ⟨i, hlt⟩ := rfl
      rw [hget]
      set k := baseKeyOf (ds.get ⟨i, hlt⟩) with hkdef
      by_cases hk : 1 < tc k
      · simp only [if_pos hk]
        have htake : ((d :: ds).take (i + 1 + 1)).filter
              (fun e => decide (baseKeyOf e = k)) =
            (d :: ds.take (i + 1)).filter (fun e => decide (baseKeyOf e = k)) := rfl
        rw [htake]
        by_cases hd : baseKeyOf d = k
        · have hti : (labelStep tc d ti).1 k = ti k + 1 := by
            simp [labelStep, hd, hk]
          rw [hti]
          have hf : (d :: ds.take (i + 1)).filter
                (fun e => decide (baseKeyOf e = k)) =
              d :: (ds.take (i + 1)).filter (fun e => decide (baseKeyOf e = k)) := by
            simp [List.filter, hd]
          rw [hf]
          simp only [List.length_cons]
          have harith : ti k + 1 +
              ((ds.take (i + 1)).filter (fun e => decide (baseKeyOf e = k))).length =
              ti k + (((ds.take (i + 1)).filter
                (fun e => decide (baseKeyOf e = k))).length + 1) := by omega
          rw [harith]
        · have hkd : ¬ (k = baseKeyOf d) := fun hkk => hd hkk.symm
          have hti : (labelStep tc d ti).1 k = ti k := by
            by_cases hdk : 1 < tc (baseKeyOf d)
            · simp [labelStep, hdk, hkd]
            · simp [labelStep, hdk]
          rw [hti]
          have hf : (d :: ds.take (i + 1)).filter
                (fun e => decide (baseKeyOf e = k)) =
              (ds.take (i + 1)).filter (fun e => decide (baseKeyOf e = k)) := by
            simp [List.filter, hd]
          rw [hf]
      · simp [if_neg hk]

/-- C1: in the device list shown by the fingerprint analysis, a device's
display label carries a numeric ordinal exactly when more than one device
shares its base key; the ordinal is the rank of the device among devices of
the same base key in first-seen order; a lone device gets the
underscore-to-space word-capitalised base label.  Concretely, two "switch"
devices become "Switch (1)" and "Switch (2)", a lone "door_sensor" becomes
"Door Sensor", and a lone device named "device_1" gets label "Device" with
no ordinal. -/
theorem fingerprint_display_labels :
    (∀ (devices : List FpDevice) (i : Nat) (h : i < devices.length)
        (h2 : i < (assignLabels devices).length),
      (assignLabels devices).get ⟨i, h2⟩ =
        (if 1 < countBase devices (baseKeyOf (devices.get ⟨i, h⟩)) then
          formatDeviceType (baseKeyOf (devices.get ⟨i, h⟩)) ++ " (".toList ++
            natToStr (((devices.take (i+1)).filter
              (fun d => decide (baseKeyOf d = baseKeyOf (devices.get ⟨i, h⟩)))).length) ++
            ")".toList
        else formatDeviceType (baseKeyOf (devices.get ⟨i, h⟩)))) ∧
    assignLabels [⟨"switch".toList, "switch_1".toList⟩,
                  ⟨"switch".toList, "switch_2".toList⟩] =
      ["Switch (1)".toList, "Switch (2)".toList] ∧
    assignLabels [⟨"door_sensor".toList, "door_sensor".toList⟩] =
      ["Door Sensor".toList] ∧
    assignLabels [⟨[], "device_1".toList⟩] = ["Device".toList] := by
  refine ⟨?_, by decide, by decide, by decide⟩
  intro devices i h h2
  have := labelsFrom_get devices (fun k => countBase devices k) (fun _ => 0) i h h2
  simpa using this

/-- Witness for C1: instantiation at a concrete two-switch list. -/
theorem fingerprint_display_labels_witness :
    (assignLabels [⟨"switch".toList, []⟩, ⟨"switch".toList, []⟩]).get ⟨1, by decide⟩ =
      (if 1 < countBase [⟨"switch".toList, []⟩, ⟨"switch".toList, []⟩]
            (baseKeyOf (([⟨"switch".toList, []⟩,
              (⟨"switch".toList, []⟩ : FpDevice)]).get ⟨1, by decide⟩)) then
        formatDeviceType (baseKeyOf (([⟨"switch".toList, []⟩,
            (⟨"switch".toList, []⟩ : FpDevice)]).get ⟨1, by decide⟩)) ++ " (".toList ++
          natToStr ((([⟨"switch".toList, []⟩,
              (⟨"switch".toList, []⟩ : FpDevice)].take 2).filter
            (fun d => decide (baseKeyOf d = baseKeyOf (([⟨"switch".toList, []⟩,
              (⟨"switch".toList, []⟩ : FpDevice)]).get ⟨1, by decide⟩)))).length) ++
          ")".toList
      else formatDeviceType (baseKeyOf (([⟨"switch".toList, []⟩,
          (⟨"switch".toList, []⟩ : FpDevice)]).get ⟨1, by decide⟩))) :=
  fingerprint_display_labels.1
    [⟨"switch".toList, []⟩, ⟨"switch".toList, []⟩] 1 (by decide) (by decide)

/-! ## C2: trigger-flag conversion (`DeviceActionIdentification.jsx`,
`deviceActionAPI.js`) -/

/-- A JavaScript value as it may arrive in the `isTriggered` field of a
backend response: a string, a boolean, `null`, `undefined` (absent field),
or a number. -/
inductive JVal where
  | jstr (s : Str)
  | jbool (b : Bool)
  | jnull
  | jundef
  | jnum (q : ℚ)
deriving DecidableEq

/-- `convertTriggeredFlag` from `DeviceActionIdentification.jsx`:
`'yes'`/`true` become `true`, `'no'`/`false` become `false`, everything
else becomes `null` (modelled as `none`). -/
def convertTriggeredFlag (flag : JVal) : Option Bool :=
  if flag = .jstr "yes".toList ∨ flag = .jbool true then some true
  else if flag = .jstr "no".toList ∨ flag = .jbool false then some false
  else none

/-- `getTriggerStatusLabel` from `deviceActionAPI.js`. -/
def getTriggerStatusLabel (isTriggered : Option Bool) : Str :=
  if isTriggered = none then "N/A".toList
  else if isTriggered = some true then "Triggered".toList else "Not Triggered".toList

/-- C2: the converted `isTriggered` is one of `true`/`false`/`null`;
`'yes'` and `true` map to `true`, `'no'` and `false` map to `false`, every
other value (including an absent field) maps to `null`; and `null` is
rendered as the label "N/A", which is distinct from "Not Triggered". -/
theorem trigger_flag_tristate :
    (∀ v : JVal, convertTriggeredFlag v = some true ∨
      convertTriggeredFlag v = some false ∨ convertTriggeredFlag v = none) ∧
    convertTriggeredFlag (.jstr "yes".toList) = some true ∧
    convertTriggeredFlag (.jbool true) = some true ∧
    convertTriggeredFlag (.jstr "no".toList) = some false ∧
    convertTriggeredFlag (.jbool false) = some false ∧
    (∀ v : JVal, v ≠ .jstr "yes".toList → v ≠ .jbool true →
      v ≠ .jstr "no".toList → v ≠ .jbool false → convertTriggeredFlag v = none) ∧
    convertTriggeredFlag .jundef = none ∧
    getTriggerStatusLabel none = "N/A".toList ∧
    getTriggerStatusLabel none ≠ "Not Triggered".toList := by
  refine ⟨?_, by decide, by decide, by decide, by decide, ?_, by decide, by decide, by decide⟩
  · intro v
    unfold convertTriggeredFlag
    split
    · exact Or.inl rfl
    · split
      · exact Or.inr (Or.inl rfl)
      · exact Or.inr (Or.inr rfl)
  · intro v h1 h2 h3 h4
    unfold convertTriggeredFlag
    rw [if_neg (by rintro (rfl | rfl) <;> simp_all),
        if_neg (by rintro (rfl | rfl) <;> simp_all)]

/-- Witness for C2: a string value other than yes/no converts to `null`. -/
theorem trigger_flag_tristate_witness :
    convertTriggeredFlag (.jstr "maybe".toList) = none :=
  trigger_flag_tristate.2.2.2.2.2.1 (.jstr "maybe".toList)
    (by decide) (by decide) (by decide) (by decide)

/-! ## Shared counting helpers for filtered lists -/

theorem length_filter_three_eq {α : Type} (p q r : α → Bool)
    (h : ∀ a, (p a).toNat + (q a).toNat + (r a).toNat = 1) (l : List α) :
    (l.filter p).length + (l.filter q).length + (l.filter r).length = l.length := by
  induction l with
  | nil => rfl
  | cons a l ih =>
    have ha := h a
    simp only [List.filter_cons]
    cases hp : p a <;> cases hq : q a <;> cases hr : r a <;>
      rw [hp, hq, hr] at ha <;> simp_all <;> omega

theorem length_filter_three_le {α : Type} (p q r : α → Bool)
    (h : ∀ a, (p a).toNat + (q a).toNat + (r a).toNat ≤ 1) (l : List α) :
    (l.filter p).length + (l.filter q).length + (l.filter r).length ≤ l.length := by
  induction l with
  | nil => exact le_refl 0
  | cons a l ih =>
    have ha := h a
    simp only [List.filter_cons]
    cases hp : p a <;> cases hq : q a <;> cases hr : r a <;>
      rw [hp, hq, hr] at ha <;> simp_all <;> omega

theorem length_filter_three_lt {α : Type} (p q r : α → Bool)
    (h : ∀ a, (p a).toNat + (q a).toNat + (r a).toNat ≤ 1) (l : List α)
    (a : α) (hal : a ∈ l) (hpa : p a = false) (hqa : q a = false)
    (hra : r a = false) :
    (l.filter p).length + (l.filter q).length + (l.filter r).length < l.length := by
  induction l with
  | nil => cases hal
  | cons b l ih =>
    simp only [List.filter_cons]
    rcases List.mem_cons.mp hal with rfl | hmem
    · have hle := length_filter_three_le p q r h l
      rw [hpa, hqa, hra]
      simp only [Bool.false_eq_true, if_false, List.length_cons]
      omega
    · have hb := h b
      have hlt := ih hmem
      cases hp : p b <;> cases hq : q b <;> cases hr : r b <;>
        rw [hp, hq, hr] at hb <;> simp_all <;> omega

/-! ## C9: device statistics (`devicefpAPI.js`) -/

/-- The fields of a fingerprinted device read by the statistics helpers;
`none` models an absent (falsy) field. -/
structure FpStatDevice where
  confidence : Option ℚ
  total_packets : Option ℕ
  connected_to_router : Bool
deriving DecidableEq

/-- The confidence-level argument of `filterDevicesByConfidence`; `other`
stands for any string that is none of high/medium/low/all and falls into
the switch's `default` branch. -/
inductive ConfLevel where
  | all | high | medium | low | other
deriving DecidableEq

/-- `filterDevicesByConfidence` from `devicefpAPI.js`: keep devices whose
`confidence || 0` falls in the requested band (high: `≥ 0.8`, medium:
`≥ 0.5` and `< 0.8`, low: `< 0.5`); `all` and unknown levels keep all. -/
def filterDevicesByConfidence (devices : List FpStatDevice) (level : ConfLevel) :
    List FpStatDevice :=
  if level = .all then devices
  else
    devices.filter (fun d =>
      let confidence := d.confidence.getD 0
      match level with
      | .high => decide (confidence ≥ 0.8)
      | .medium => decide (confidence ≥ 0.5 ∧ confidence < 0.8)
      | .low => decide (confidence < 0.5)
      | _ => true)

/-- Rounding to two decimal places (`toFixed(2)` / `round(x, 2)`). -/
def round2 (q : ℚ) : ℚ := ((round (100 * q) : ℤ) : ℚ) / 100

/-- The summary returned by `getDeviceStatistics`. -/
structure DeviceStats where
  totalDevices : ℕ
  connectedDevices : ℕ
  totalPackets : ℕ
  averageConfidence : ℚ
  highConfidenceDevices : ℕ
  mediumConfidenceDevices : ℕ
  lowConfidenceDevices : ℕ
deriving DecidableEq

/-- `getDeviceStatistics` from `devicefpAPI.js`: an all-zero summary for an
empty or missing list, otherwise totals, the connected count, the average
confidence (rounded to 2 decimals) and the three confidence buckets. -/
def getDeviceStatistics (devices : List FpStatDevice) : DeviceStats :=
  if devices.isEmpty then ⟨0, 0, 0, 0, 0, 0, 0⟩
  else
    { totalDevices := devices.length
      connectedDevices := (devices.filter (fun d => d.connected_to_router)).length
      totalPackets := (devices.map (fun d => d.total_packets.getD 0)).sum
      averageConfidence :=
        round2 ((devices.map (fun d => d.confidence.getD 0)).sum / devices.length)
      highConfidenceDevices := (filterDevicesByConfidence devices .high).length
      mediumConfidenceDevices := (filterDevicesByConfidence devices .medium).length
      lowConfidenceDevices := (filterDevicesByConfidence devices .low).length }

theorem filterByConf_high (devices : List FpStatDevice) :
    filterDevicesByConfidence devices .high =
      devices.filter (fun d => decide (d.confidence.getD 0 ≥ 0.8)) := rfl

theorem filterByConf_medium (devices : List FpStatDevice) :
    filterDevicesByConfidence devices .medium =
      devices.filter (fun d =>
        decide (d.confidence.getD 0 ≥ 0.5 ∧ d.confidence.getD 0 < 0.8)) := rfl

theorem filterByConf_low (devices : List FpStatDevice) :
    filterDevicesByConfidence devices .low =
      devices.filter (fun d => decide (d.confidence.getD 0 < 0.5)) := rfl

theorem conf_band_partition (d : FpStatDevice) :
    (decide (d.confidence.getD 0 ≥ 0.8)).toNat +
      (decide (d.confidence.getD 0 ≥ 0.5 ∧ d.confidence.getD 0 < 0.8)).toNat +
      (decide (d.confidence.getD 0 < 0.5)).toNat = 1 := by
  rcases le_or_lt (0.8 : ℚ) (d.confidence.getD 0) with h1 | h1
  · have h2 : (0.5 : ℚ) ≤ d.confidence.getD 0 := by linarith
    have h3 : ¬ d.confidence.getD 0 < (0.8 : ℚ) := not_lt.mpr h1
    have h4 : ¬ d.confidence.getD 0 < (0.5 : ℚ) := not_lt.mpr h2
    simp [ge_iff_le, h1, h3, h4]
  · rcases le_or_lt (0.5 : ℚ) (d.confidence.getD 0) with h2 | h2
    · have h3 : ¬ (0.8 : ℚ) ≤ d.confidence.getD 0 := not_le.mpr h1
      have h4 : ¬ d.confidence.getD 0 < (0.5 : ℚ) := not_lt.mpr h2
      simp [ge_iff_le, h1, h2, h3, h4]
    · have h3 : ¬ (0.8 : ℚ) ≤ d.confidence.getD 0 := not_le.mpr h1
      have h4 : ¬ (0.5 : ℚ) ≤ d.confidence.getD 0 := not_le.mpr h2
      simp [ge_iff_le, h2, h3, h4]

/-- C9: for a non-empty device list the high/medium/low confidence buckets
(thresholds `0.8` and `0.5`, missing confidence treated as `0`) partition
the devices, so their sizes add up to `totalDevices`; a missing confidence
lands in the low bucket; and the empty list yields the all-zero summary. -/
theorem device_stats_partition :
    (∀ devices : List FpStatDevice, devices ≠ [] →
      (getDeviceStatistics devices).highConfidenceDevices +
        (getDeviceStatistics devices).mediumConfidenceDevices +
        (getDeviceStatistics devices).lowConfidenceDevices =
        (getDeviceStatistics devices).totalDevices) ∧
    (∀ d : FpStatDevice, d.confidence = none → d.confidence.getD 0 < 0.5) ∧
    getDeviceStatistics [] = ⟨0, 0, 0, 0, 0, 0, 0⟩ := by
  refine ⟨?_, ?_, rfl⟩
  · intro devices hne
    cases devices with
    | nil => exact absurd rfl hne
    | cons d ds =>
      show (getDeviceStatistics (d :: ds)).highConfidenceDevices +
          (getDeviceStatistics (d :: ds)).mediumConfidenceDevices +
          (getDeviceStatistics (d :: ds)).lowConfidenceDevices =
          (getDeviceStatistics (d :: ds)).totalDevices
      have hrepr : getDeviceStatistics (d :: ds) =
          { totalDevices := (d :: ds).length
            connectedDevices :=
              ((d :: ds).filter (fun e => e.connected_to_router)).length
            totalPackets := ((d :: ds).map (fun e => e.total_packets.getD 0)).sum
            averageConfidence :=
              round2 (((d :: ds).map (fun e => e.confidence.getD 0)).sum /
                (d :: ds).length)
            highConfidenceDevices :=
              (filterDevicesByConfidence (d :: ds) .high).length
            mediumConfidenceDevices :=
              (filterDevicesByConfidence (d :: ds) .medium).length
            lowConfidenceDevices :=
              (filterDevicesByConfidence (d :: ds) .low).length } := rfl
      rw [hrepr, filterByConf_high, filterByConf_medium, filterByConf_low]
      exact length_filter_three_eq _ _ _ conf_band_partition (d :: ds)
  · intro d hd
    rw [hd]
    norm_num

/-- Witness for C9: the partition at a concrete three-device list. -/
theorem device_stats_partition_witness :
    (getDeviceStatistics [⟨some 0.9, some 10, true⟩, ⟨some 0.6, none, false⟩,
        ⟨none, some 3, false⟩]).highConfidenceDevices +
      (getDeviceStatistics [⟨some 0.9, some 10, true⟩, ⟨some 0.6, none, false⟩,
        ⟨none, some 3, false⟩]).mediumConfidenceDevices +
      (getDeviceStatistics [⟨some 0.9, some 10, true⟩, ⟨some 0.6, none, false⟩,
        ⟨none, some 3, false⟩]).lowConfidenceDevices =
      (getDeviceStatistics [⟨some 0.9, some 10, true⟩, ⟨some 0.6, none, false⟩,
        ⟨none, some 3, false⟩]).totalDevices :=
  device_stats_partition.1
    [⟨some 0.9, some 10, true⟩, ⟨some 0.6, none, false⟩, ⟨none, some 3, false⟩]
    (by decide)

/-! ## C10: action statistics (`deviceActionAPI.js`) -/

/-- The `is_triggered` field as used by `getActionStatistics`: the strict
comparisons distinguish `true`, `false`, `null` and anything else. -/
inductive TriVal where
  | vTrue | vFalse | vNull | vOther
deriving DecidableEq

/-- The fields of an enriched device read by `getActionStatistics`;
`is_active` is the truthiness of `d.is_active`. -/
structure ActDevice where
  is_triggered : TriVal
  is_active : Bool
deriving DecidableEq

/-- The summary returned by `getActionStatistics`. -/
structure ActionStats where
  totalDevices : ℕ
  activeDevices : ℕ
  triggeredDevices : ℕ
  notTriggeredDevices : ℕ
  nonTriggerableDevices : ℕ
deriving DecidableEq

/-- `getActionStatistics` from `deviceActionAPI.js`: counts devices with
`is_triggered === true`, devices with `is_triggered === false` that are
also active, and devices with `is_triggered === null`. -/
def getActionStatistics (devices : List ActDevice) : ActionStats :=
  if devices.isEmpty then ⟨0, 0, 0, 0, 0⟩
  else
    { totalDevices := devices.length
      activeDevices := (devices.filter (fun d => d.is_active)).length
      triggeredDevices :=
        (devices.filter (fun d => decide (d.is_triggered = .vTrue))).length
      notTriggeredDevices :=
        (devices.filter
          (fun d => decide (d.is_triggered = .vFalse) && d.is_active)).length
      nonTriggerableDevices :=
        (devices.filter (fun d => decide (d.is_triggered = .vNull))).length }

theorem action_band_le (d : ActDevice) :
    (decide (d.is_triggered = .vTrue)).toNat +
      (decide (d.is_triggered = .vFalse) && d.is_active).toNat +
      (decide (d.is_triggered = .vNull)).toNat ≤ 1 := by
  cases h : d.is_triggered <;> cases ha : d.is_active <;> simp [h, ha]

/-- C10: `triggeredDevices + notTriggeredDevices + nonTriggerableDevices`
never exceeds `totalDevices`, because `notTriggeredDevices` counts only
devices with `is_triggered === false` that are also active; the bound is
strict whenever the list contains an inactive device with
`is_triggered === false`. -/
theorem action_stats_bound :
    (∀ devices : List ActDevice,
      (getActionStatistics devices).triggeredDevices +
        (getActionStatistics devices).notTriggeredDevices +
        (getActionStatistics devices).nonTriggerableDevices ≤
        (getActionStatistics devices).totalDevices) ∧
    (∀ devices : List ActDevice, ∀ d ∈ devices,
      d.is_triggered = .vFalse → d.is_active = false →
      (getActionStatistics devices).triggeredDevices +
        (getActionStatistics devices).notTriggeredDevices +
        (getActionStatistics devices).nonTriggerableDevices <
        (getActionStatistics devices).totalDevices) ∧
    (getActionStatistics [⟨.vFalse, false⟩]).notTriggeredDevices = 0 := by
  refine ⟨?_, ?_, by decide⟩
  · intro devices
    cases devices with
    | nil => exact le_refl 0
    | cons d ds =>
      exact length_filter_three_le _ _ _ action_band_le (d :: ds)
  · intro devices d hmem htrig hact
    cases devices with
    | nil => cases hmem
    | cons e ds =>
      refine length_filter_three_lt _ _ _ action_band_le (e :: ds) d hmem ?_ ?_ ?_
      · simp [htrig]
      · simp [htrig, hact]
      · simp [htrig]

/-- Witness for C10: the strict bound at a concrete list containing an
inactive, not-triggered device. -/
theorem action_stats_bound_witness :
    (getActionStatistics [⟨.vTrue, true⟩, ⟨.vFalse, false⟩]).triggeredDevices +
      (getActionStatistics [⟨.vTrue, true⟩, ⟨.vFalse, false⟩]).notTriggeredDevices +
      (getActionStatistics [⟨.vTrue, true⟩, ⟨.vFalse, false⟩]).nonTriggerableDevices <
      (getActionStatistics [⟨.vTrue, true⟩, ⟨.vFalse, false⟩]).totalDevices :=
  action_stats_bound.2.1 [⟨.vTrue, true⟩, ⟨.vFalse, false⟩] ⟨.vFalse, false⟩
    (by decide) rfl rfl

/-! ## Character lemmas for BSSID normalization -/

theorem toUpper_eq (c : Char) :
    Char.toUpper c =
      if 97 ≤ c.toNat ∧ c.toNat ≤ 122 then Char.ofNat (c.toNat - 32) else c := rfl

theorem charOfNat_toNat_small : ∀ n, n < 123 → (Char.ofNat n).toNat = n := by decide

theorem toUpper_toNat_of_lower (c : Char) (h : 97 ≤ c.toNat ∧ c.toNat ≤ 122) :
    (Char.toUpper c).toNat = c.toNat - 32 := by
  rw [toUpper_eq, if_pos h]
  exact charOfNat_toNat_small _ (by omega)

theorem toUpper_of_not_lower (c : Char) (h : ¬ (97 ≤ c.toNat ∧ c.toNat ≤ 122)) :
    Char.toUpper c = c := by
  rw [toUpper_eq, if_neg h]

theorem toUpper_idem (c : Char) :
    Char.toUpper (Char.toUpper c) = Char.toUpper c := by
  by_cases h : 97 ≤ c.toNat ∧ c.toNat ≤ 122
  · have hn := toUpper_toNat_of_lower c h
    apply toUpper_of_not_lower
    omega
  · rw [toUpper_of_not_lower c h, toUpper_of_not_lower c h]

/-! ## C5/C6: BSSID normalization and filtering

`Modelled from the spec:` the backend's `analysis_manager.py` is not in
the available sources; §4.2 of the spec describes the BSSID filter:
normalize the BSSID (strip `:`/`-`, uppercase) and every frame's address
fields the same way, and keep the frames where the normalized BSSID equals
any present address field. -/

/-- A character survives normalization when it is neither a colon nor a
hyphen. -/
def keepChar (c : Char) : Bool := decide (c ≠ ':') && decide (c ≠ '-')

/-- `Modelled from the spec:` BSSID normalization — remove `:` and `-`,
then uppercase (§4.2, backend README "Normalizes format (removes
colons/hyphens, uppercase)"). -/
def normalizeBssid (s : Str) : Str :=
  (s.filter keepChar).map Char.toUpper

theorem keepChar_toUpper (c : Char) : keepChar (Char.toUpper c) = keepChar c := by
  by_cases h : 97 ≤ c.toNat ∧ c.toNat ≤ 122
  · have hn := toUpper_toNat_of_lower c h
    have h1 : Char.toUpper c ≠ ':' := by
      intro he; rw [he] at hn
      have : (':').toNat = 58 := rfl
      omega
    have h2 : Char.toUpper c ≠ '-' := by
      intro he; rw [he] at hn
      have : ('-').toNat = 45 := rfl
      omega
    have h3 : c ≠ ':' := by
      intro he; rw [he] at h
      exact absurd h (by decide)
    have h4 : c ≠ '-' := by
      intro he; rw [he] at h
      exact absurd h (by decide)
    simp [keepChar, h1, h2, h3, h4]
  · rw [toUpper_of_not_lower c h]

theorem filter_keep_map_toUpper (l : Str) :
    (l.map Char.toUpper).filter keepChar =
      (l.filter keepChar).map Char.toUpper := by
  induction l with
  | nil => rfl
  | cons c l ih =>
    simp only [List.map_cons, List.filter_cons, keepChar_toUpper c]
    cases hk : keepChar c <;> simp [ih]

theorem map_toUpper_idem (l : Str) :
    (l.map Char.toUpper).map Char.toUpper = l.map Char.toUpper := by
  induction l with
  | nil => rfl
  | cons c l ih => simp only [List.map_cons, toUpper_idem, ih]

theorem filter_keep_idem (l : Str) :
    (l.filter keepChar).filter keepChar = l.filter keepChar := by
  induction l with
  | nil => rfl
  | cons c l ih => cases hk : keepChar c <;> simp [List.filter_cons, hk, ih]

/-- C6: BSSID normalization is idempotent, and the colon, hyphen and bare
spellings of the same address normalize to the same canonical uppercase
hex form. -/
theorem normalize_idempotent :
    (∀ x : Str, normalizeBssid (normalizeBssid x) = normalizeBssid x) ∧
    normalizeBssid "AA:BB:CC:DD:EE:FF".toList =
      normalizeBssid "aa-bb-cc-dd-ee-ff".toList ∧
    normalizeBssid "aa-bb-cc-dd-ee-ff".toList =
      normalizeBssid "AABBCCDDEEFF".toList ∧
    normalizeBssid "AA:BB:CC:DD:EE:FF".toList = "AABBCCDDEEFF".toList := by
  refine ⟨?_, by decide, by decide, by decide⟩
  intro x
  show ((((x.filter keepChar).map Char.toUpper).filter keepChar).map Char.toUpper) =
    (x.filter keepChar).map Char.toUpper
  rw [filter_keep_map_toUpper, filter_keep_idem, map_toUpper_idem]

/-! ## C3/C4/C8: frame classification and percentages

`Modelled from the spec:` the backend frame classifier
(`analysis_manager.py`) is not in the available sources; §3 and §4.3 of the
spec describe the frame record and the classification: the 802.11 `type`
field maps 0 to MANAGEMENT, 1 to CONTROL, 2 to DATA and everything else
(including frames not decodable as 802.11) to OTHER, and percentages are
`count / total_filtered × 100` rounded to 2 decimal places, with 0
substituted when `total_filtered` is 0. -/

/-- IP-layer payload protocol tag (§4.3). -/
inductive IpProto where
  | tcp | udp | icmp | otherProto
deriving DecidableEq

/-- `Modelled from the spec:` a link-layer frame record (§3): timestamp,
optional 802.11 `type` field (`none` when the frame is not decodable as
802.11), four optional hardware addresses, optional signal strength and
optional IP-layer protocol tag. -/
structure Frame where
  ts : ℚ
  ftype : Option ℕ
  addr1 : Option Str
  addr2 : Option Str
  addr3 : Option Str
  addr4 : Option Str
  signal : Option ℚ
  proto : Option IpProto
deriving DecidableEq

/-- The four 802.11 packet-type buckets. -/
inductive PType where
  | data | control | management | other
deriving DecidableEq

/-- `Modelled from the spec:` frame classification (§4.3, backend README):
type 2 is DATA, type 1 is CONTROL, type 0 is MANAGEMENT, anything else is
OTHER. -/
def classifyFrame (f : Frame) : PType :=
  match f.ftype with
  | some 0 => .management
  | some 1 => .control
  | some 2 => .data
  | _ => .other

/-- The per-type frame count over a filtered frame set. -/
def typeCount (F : List Frame) (t : PType) : ℕ :=
  (F.filter (fun f => decide (classifyFrame f = t))).length

/-- `Modelled from the spec:` percentage computation (§4.3, §7):
`count / total × 100` rounded to 2 decimal places, with the division by a
zero total guarded by substituting 0. -/
def pctOf (count total : ℕ) : ℚ :=
  if total = 0 then 0 else round2 ((count : ℚ) / (total : ℚ) * 100)

/-- The per-type percentage over a filtered frame set. -/
def typePct (F : List Frame) (t : PType) : ℚ := pctOf (typeCount F t) F.length

/-- The per-protocol frame count over a filtered frame set. -/
def protoCount (F : List Frame) (p : IpProto) : ℕ :=
  (F.filter (fun f => decide (f.proto = some p))).length

/-- The per-protocol percentage over a filtered frame set. -/
def protoPct (F : List Frame) (p : IpProto) : ℚ := pctOf (protoCount F p) F.length

theorem length_filter_four_eq {α : Type} (p q r s : α → Bool)
    (h : ∀ a, (p a).toNat + (q a).toNat + (r a).toNat + (s a).toNat = 1)
    (l : List α) :
    (l.filter p).length + (l.filter q).length + (l.filter r).length +
      (l.filter s).length = l.length := by
  induction l with
  | nil => rfl
  | cons a l ih =>
    have ha := h a
    simp only [List.filter_cons]
    cases hp : p a <;> cases hq : q a <;> cases hr : r a <;> cases hs : s a <;>
      rw [hp, hq, hr, hs] at ha <;> simp_all <;> omega

theorem class_partition (f : Frame) :
    (decide (classifyFrame f = .data)).toNat +
      (decide (classifyFrame f = .control)).toNat +
      (decide (classifyFrame f = .management)).toNat +
      (decide (classifyFrame f = .other)).toNat = 1 := by
  cases h : classifyFrame f <;> simp [h]

theorem round_le_round {x y : ℚ} (h : x ≤ y) : round x ≤ round y := by
  rw [round_eq, round_eq]
  exact Int.floor_mono (by linarith)

theorem round2_bounds {q : ℚ} (h0 : 0 ≤ q) (h1 : q ≤ 100) :
    0 ≤ round2 q ∧ round2 q ≤ 100 := by
  have hl : (0 : ℤ) ≤ round (100 * q) := by
    have h := round_le_round (x := (0 : ℚ)) (y := 100 * q) (by linarith)
    simpa using h
  have hu : round (100 * q) ≤ 10000 := by
    have h := round_le_round (x := 100 * q) (y := (10000 : ℚ)) (by linarith)
    simpa using h
  constructor
  · apply div_nonneg _ (by norm_num)
    exact_mod_cast hl
  · rw [round2, div_le_iff₀ (by norm_num)]
    calc ((round (100 * q) : ℤ) : ℚ) ≤ ((10000 : ℤ) : ℚ) := by exact_mod_cast hu
    _ = 100 * 100 := by norm_num

theorem pctOf_bounds (count total : ℕ) (hct : count ≤ total) :
    0 ≤ pctOf count total ∧ pctOf count total ≤ 100 := by
  by_cases h : total = 0
  · simp [pctOf, h]
  · rw [pctOf, if_neg h]
    have htpos : (0 : ℚ) < total := by
      exact_mod_cast Nat.pos_of_ne_zero h
    apply round2_bounds
    · positivity
    · rw [div_mul_eq_mul_div, div_le_iff₀ htpos]
      have : (count : ℚ) ≤ (total : ℚ) := by exact_mod_cast hct
      linarith

theorem round2_eval {q : ℚ} {n : ℤ} (h1 : (n : ℚ) ≤ 100 * q + 1/2)
    (h2 : 100 * q + 1/2 < n + 1) : round2 q = (n : ℚ) / 100 := by
  have hf : ⌊100 * q + 1/2⌋ = n := Int.floor_eq_iff.mpr ⟨h1, by linarith⟩
  rw [round2, round_eq, hf]

theorem pctOf_eval (c t : ℕ) (ht : t ≠ 0) {n : ℤ}
    (h1 : (n : ℚ) ≤ 100 * ((c : ℚ) / (t : ℚ) * 100) + 1/2)
    (h2 : 100 * ((c : ℚ) / (t : ℚ) * 100) + 1/2 < n + 1) :
    pctOf c t = (n : ℚ) / 100 := by
  rw [pctOf, if_neg ht]
  exact round2_eval h1 h2

/-- A three-frame set (one MANAGEMENT, one CONTROL, one DATA frame) whose
independently rounded percentages sum to 99.99 rather than 100. -/
def threeFrameSet : List Frame :=
  [⟨0, some 0, none, none, none, none, none, none⟩,
   ⟨0, some 1, none, none, none, none, none, none⟩,
   ⟨0, some 2, none, none, none, none, none, none⟩]

/-- C3: the four per-type counts always add up to the size of the filtered
frame set; every packet-type percentage lies in `[0, 100]`; and since each
percentage is independently rounded, the four percentages need not add up
to exactly 100 — witnessed by a three-frame set whose percentages sum to
99.99. -/
theorem packet_type_invariants :
    (∀ F : List Frame,
      typeCount F .data + typeCount F .control + typeCount F .management +
        typeCount F .other = F.length) ∧
    (∀ (F : List Frame) (t : PType), 0 ≤ typePct F t ∧ typePct F t ≤ 100) ∧
    typePct threeFrameSet .data + typePct threeFrameSet .control +
      typePct threeFrameSet .management + typePct threeFrameSet .other ≠ 100 := by
  refine ⟨?_, ?_, ?_⟩
  · intro F
    exact length_filter_four_eq _ _ _ _ class_partition F
  · intro F t
    exact pctOf_bounds _ _ (List.length_filter_le _ F)
  · have hd : typeCount threeFrameSet .data = 1 := rfl
    have hc : typeCount threeFrameSet .control = 1 := rfl
    have hm : typeCount threeFrameSet .management = 1 := rfl
    have ho : typeCount threeFrameSet .other = 0 := rfl
    have hl : threeFrameSet.length = 3 := rfl
    have h13 : pctOf 1 3 = ((3333 : ℤ) : ℚ) / 100 :=
      pctOf_eval 1 3 (by norm_num) (by norm_num) (by norm_num)
    have h03 : pctOf 0 3 = 0 := by
      rw [pctOf, if_neg (by norm_num), round2]
      norm_num
    rw [typePct, typePct, typePct, typePct, hd, hc, hm, ho, hl, h13, h03]
    norm_num

theorem filter_replicate_length {α : Type} (n : ℕ) (a : α) (p : α → Bool) :
    ((List.replicate n a).filter p).length = if p a then n else 0 := by
  induction n with
  | zero => simp
  | succ n ih =>
    rw [List.replicate_succ, List.filter_cons]
    cases hp : p a <;> rw [hp] at ih <;> simp [hp, ih]

/-- The scenario capture slice of §8: 900 DATA, 300 CONTROL, 250
MANAGEMENT and 50 OTHER frames after the BSSID filter. -/
def scenarioFrameSet : List Frame :=
  List.replicate 900 (⟨0, some 2, none, none, none, none, none, none⟩ : Frame) ++
    List.replicate 300 (⟨0, some 1, none, none, none, none, none, none⟩ : Frame) ++
    List.replicate 250 (⟨0, some 0, none, none, none, none, none, none⟩ : Frame) ++
    List.replicate 50 (⟨0, some 7, none, none, none, none, none, none⟩ : Frame)

/-- C4: on a filtered set of 1500 frames with 900 DATA, 300 CONTROL, 250
MANAGEMENT and 50 OTHER frames, the packet-type percentages are exactly
60.0, 20.0, 16.67 and 3.33 — each computed as count/total×100 and rounded
to 2 decimal places. -/
theorem scenario_percentages :
    scenarioFrameSet.length = 1500 ∧
    typeCount scenarioFrameSet .data = 900 ∧
    typeCount scenarioFrameSet .control = 300 ∧
    typeCount scenarioFrameSet .management = 250 ∧
    typeCount scenarioFrameSet .other = 50 ∧
    typePct scenarioFrameSet .data = 60 ∧
    typePct scenarioFrameSet .control = 20 ∧
    typePct scenarioFrameSet .management = 16.67 ∧
    typePct scenarioFrameSet .other = 3.33 := by
  have hlen : scenarioFrameSet.length = 1500 := by
    rw [scenarioFrameSet, List.length_append, List.length_append, List.length_append,
      List.length_replicate, List.length_replicate, List.length_replicate,
      List.length_replicate]
  have hcount : ∀ t : PType,
      typeCount scenarioFrameSet t =
        (if decide (classifyFrame ⟨0, some 2, none, none, none, none, none, none⟩ = t)
          then 900 else 0) +
        (if decide (classifyFrame ⟨0, some 1, none, none, none, none, none, none⟩ = t)
          then 300 else 0) +
        (if decide (classifyFrame ⟨0, some 0, none, none, none, none, none, none⟩ = t)
          then 250 else 0) +
        (if decide (classifyFrame ⟨0, some 7, none, none, none, none, none, none⟩ = t)
          then 50 else 0) := by
    intro t
    rw [typeCount, scenarioFrameSet, List.filter_append, List.filter_append,
      List.filter_append, List.length_append, List.length_append, List.length_append,
      filter_replicate_length, filter_replicate_length, filter_replicate_length,
      filter_replicate_length]
  have hd : typeCount scenarioFrameSet .data = 900 := by rw [hcount]; rfl
  have hc : typeCount scenarioFrameSet .control = 300 := by rw [hcount]; rfl
  have hm : typeCount scenarioFrameSet .management = 250 := by rw [hcount]; rfl
  have ho : typeCount scenarioFrameSet .other = 50 := by rw [hcount]; rfl
  have pd : pctOf 900 1500 = ((6000 : ℤ) : ℚ) / 100 :=
    pctOf_eval 900 1500 (by norm_num) (by norm_num) (by norm_num)
  have pc : pctOf 300 1500 = ((2000 : ℤ) : ℚ) / 100 :=
    pctOf_eval 300 1500 (by norm_num) (by norm_num) (by norm_num)
  have pm : pctOf 250 1500 = ((1667 : ℤ) : ℚ) / 100 :=
    pctOf_eval 250 1500 (by norm_num) (by norm_num) (by norm_num)
  have po : pctOf 50 1500 = ((333 : ℤ) : ℚ) / 100 :=
    pctOf_eval 50 1500 (by norm_num) (by norm_num) (by norm_num)
  refine ⟨hlen, hd, hc, hm, ho, ?_, ?_, ?_, ?_⟩ <;>
    rw [typePct, hlen]
  · rw [hd, pd]; norm_num
  · rw [hc, pc]; norm_num
  · rw [hm, pm]; norm_num
  · rw [ho, po]; norm_num

/-! ## C5: BSSID filtering -/

/-- `Modelled from the spec:` a frame matches the target BSSID when the
normalized BSSID equals any of its present address fields (§4.2). -/
def frameMatches (B : Str) (f : Frame) : Bool :=
  [f.addr1, f.addr2, f.addr3, f.addr4].any (fun a =>
    match a with
    | some x => decide (normalizeBssid x = normalizeBssid B)
    | none => false)

/-- `Modelled from the spec:` the BSSID filter keeps the matching frames
in their original order (§4.2, §3 FilteredFrameSet). -/
def filterByBssid (B : Str) (frames : List Frame) : List Frame :=
  frames.filter (frameMatches B)

/-- `totalBeforeFilter` of §4.2. -/
def totalBeforeFilter (frames : List Frame) : ℕ := frames.length

/-- `totalAfterFilter` of §4.2. -/
def totalAfterFilter (B : Str) (frames : List Frame) : ℕ :=
  (filterByBssid B frames).length

theorem filter_idem {α : Type} (p : α → Bool) (l : List α) :
    (l.filter p).filter p = l.filter p := by
  induction l with
  | nil => rfl
  | cons a l ih => cases hp : p a <;> simp [List.filter_cons, hp, ih]

/-- C5: the number of frames after the BSSID filter never exceeds the
number before it, and filtering with the same BSSID is idempotent — the
already-filtered set is returned unchanged, same frames in the same
order. -/
theorem bssid_filter_spec :
    (∀ (C : List Frame) (B : Str), totalAfterFilter B C ≤ totalBeforeFilter C) ∧
    (∀ (C : List Frame) (B : Str),
      filterByBssid B (filterByBssid B C) = filterByBssid B C) := by
  constructor
  · intro C B
    exact List.length_filter_le _ _
  · intro C B
    exact filter_idem _ C

/-! ## C8: zero-total guard -/

/-- C8: when the filtered total is 0 every packet-type percentage and
every protocol percentage is exactly 0 — the division by `total_filtered`
is guarded, so the division-by-zero branch is unreachable. -/
theorem zero_total_percentages :
    ∀ F : List Frame, F.length = 0 →
      (∀ t, typePct F t = 0) ∧ (∀ p, protoPct F p = 0) := by
  intro F h
  constructor
  · intro t
    simp [typePct, pctOf, h]
  · intro p
    simp [protoPct, pctOf, h]

/-- Witness for C8: the zero guard at the empty frame set. -/
theorem zero_total_percentages_witness :
    typePct [] .data = 0 ∧ protoPct [] .tcp = 0 :=
  ⟨(zero_total_percentages [] rfl).1 .data,
   (zero_total_percentages [] rfl).2 .tcp⟩

/-! ## C7: trigger inference

`Modelled from the spec:` the backend trigger inference engine is not in
the available sources; §4.6 of the spec describes it: each device is
either "continuously active" (a device-type category known to transmit
regardless of stimulus, e.g. streaming cameras) or "event-driven";
event-driven devices contribute one TriggerEvent per burst (a run of
frames whose inter-arrival gap does not exceed a fixed idle threshold)
with a confidence proportional to burst size, while continuously-active
devices contribute no events and get the tri-state "not applicable"
trigger flag; all events are merged into one timestamp-ordered
TriggerSequence with a parallel `device_sequence` of labels.  The exact
action labels and confidence formula are open design choices (§9) and are
modelled by a fixed label and a burst-size-monotone ratio. -/

/-- One inferred trigger event (§3 TriggerEvent). -/
structure TriggerEvent where
  deviceLabel : Str
  ts : ℚ
  action : Str
  conf : ℚ
deriving DecidableEq

/-- A fingerprinted device as consumed by trigger inference (§4.6). -/
structure TDevice where
  label : Str
  continuous : Bool
  frameTimes : List ℚ
deriving DecidableEq

/-- A processed device of the trigger/action response (§6): `isTriggered`
is tri-state, `none` being the distinguished "not applicable" value. -/
structure ProcessedDevice where
  label : Str
  continuous : Bool
  isTriggered : Option Bool
deriving DecidableEq

/-- The trigger/action response (§4.6 output). -/
structure TriggerOutput where
  devices_processed : List ProcessedDevice
  trigger_sequence : List TriggerEvent
  device_sequence : List Str
deriving DecidableEq

/-- `Modelled from the spec:` burst segmentation (§4.6) — a burst is a
maximal run of frames whose inter-arrival gap does not exceed the idle
threshold. -/
def bursts (idle : ℚ) : List ℚ → List (List ℚ)
  | [] => []
  | [t] => [[t]]
  | t :: t2 :: rest =>
    match bursts idle (t2 :: rest) with
    | [] => [[t]]
    | b :: bs => if t2 - t ≤ idle then (t :: b) :: bs else [t] :: b :: bs

/-- The TriggerEvent emitted for one burst: timed at the burst's first
frame, confidence growing with burst size. -/
def eventOfBurst (d : TDevice) (b : List ℚ) : TriggerEvent :=
  ⟨d.label, b.headD 0, "activity".toList, (b.length : ℚ) / ((b.length : ℚ) + 1)⟩

/-- `Modelled from the spec:` the events of one device (§4.6) — none for a
continuously-active device, one per burst otherwise. -/
def deviceEvents (idle : ℚ) (d : TDevice) : List TriggerEvent :=
  if d.continuous then []
  else (bursts idle d.frameTimes).map (eventOfBurst d)

/-- `Modelled from the spec:` the processed-device entry (§4.6) — a
continuously-active device gets the tri-state "not applicable" flag, an
event-driven device is triggered when it has at least one event. -/
def processDevice (idle : ℚ) (d : TDevice) : ProcessedDevice :=
  ⟨d.label, d.continuous,
   if d.continuous then none else some (!(deviceEvents idle d).isEmpty)⟩

/-- Ordering of trigger events by timestamp. -/
def eventLE (a b : TriggerEvent) : Prop := a.ts ≤ b.ts

instance : DecidableRel eventLE :=
  fun a b => inferInstanceAs (Decidable (a.ts ≤ b.ts))

instance : IsTotal TriggerEvent eventLE := ⟨fun a b => le_total a.ts b.ts⟩

instance : IsTrans TriggerEvent eventLE := ⟨fun _ _ _ => le_trans⟩

/-- `Modelled from the spec:` the trigger inference engine (§4.6) — merge
all devices' events into one timestamp-ordered sequence and emit the
parallel label sequence. -/
def inferTriggers (idle : ℚ) (devices : List TDevice) : TriggerOutput :=
  let evts := (devices.map (deviceEvents idle)).flatten
  let seq := List.insertionSort eventLE evts
  ⟨devices.map (processDevice idle), seq, seq.map (fun e => e.deviceLabel)⟩

/-- C7: the merged trigger sequence is non-decreasing in timestamp, a
continuously-active device never appears among the processed devices with
`isTriggered` equal to `true` or `false` — its flag is always the
distinguished not-applicable value — and the device sequence is the
parallel projection of the trigger sequence's labels. -/
theorem trigger_sequence_spec :
    (∀ (idle : ℚ) (devices : List TDevice),
      (inferTriggers idle devices).trigger_sequence.Sorted eventLE) ∧
    (∀ (idle : ℚ) (devices : List TDevice),
      ∀ p ∈ (inferTriggers idle devices).devices_processed,
        p.continuous = true → p.isTriggered = none) ∧
    (∀ (idle : ℚ) (devices : List TDevice),
      (inferTriggers idle devices).device_sequence =
        (inferTriggers idle devices).trigger_sequence.map
          (fun e => e.deviceLabel)) := by
  refine ⟨?_, ?_, ?_⟩
  · intro idle devices
    exact List.sorted_insertionSort eventLE _
  · intro idle devices p hp hcont
    rw [inferTriggers] at hp
    rcases List.mem_map.mp hp with ⟨d, _, hpd⟩
    rw [← hpd] at hcont ⊢
    rw [processDevice] at hcont ⊢
    simp only at hcont
    rw [if_pos hcont]
  · intro idle devices
    rfl

/-- Witness for C7: a continuously-active camera device in a concrete run
gets the not-applicable flag. -/
theorem trigger_sequence_spec_witness :
    (⟨"camera".toList, true, none⟩ : ProcessedDevice).isTriggered = none :=
  trigger_sequence_spec.2.1 1 [⟨"camera".toList, true, [0, 2]⟩]
    ⟨"camera".toList, true, none⟩ (by simp [inferTriggers, processDevice, deviceEvents])
    rfl

end ShadowScan
